import Mathlib

/-!
Shallow embedding of the minisource/log log-processing engine: the
`LogService` (ingestion defaults, buffer flushing, cached queries, alert
evaluation with rate-limited triggering, retention cleanup) and the parts
of `LogRepository` it drives (`buildQuery` filter semantics,
`getLevelsAtOrAbove`, `DeleteOlderThan`).

Modelling conventions:
* UUIDs are naturals; `0` stands for `uuid.Nil` (the Go zero value).
* Instants and durations are integers in nanoseconds, as in Go's `time`
  package; the zero `time.Time` (`IsZero`) is modelled as instant `0`,
  and `AddDate(0, 0, -d)` as subtracting `d` fixed-length days.
* The durable store, the Redis cache, and the policy/alert repositories
  are modelled by explicit values passed in: a store is a list of
  entries, a repository read is an `Except` value, and a cache read is a
  small inductive of hit/miss/failure.
* `json.RawMessage` filters on alert rules are modelled by their parse
  outcome: `Option LogFilter`, with `none` for a payload that
  `json.Unmarshal` rejects.
-/

namespace Minilog

/-- UUIDs, with `0` playing the role of `uuid.Nil`. -/
abbrev UUID := Nat

/-- The Go zero UUID `uuid.Nil`. -/
def uuidNil : UUID := 0

/-- Instants and durations in nanoseconds (Go `time.Time` / `time.Duration`). -/
abbrev Time := Int

/-- Go's `time.Minute` in nanoseconds. -/
def minuteNs : Int := 60000000000

/-- One day (24h) in nanoseconds, modelling `AddDate(0, 0, -d)` steps. -/
def dayNs : Int := 86400000000000

/-- Log severity, a string type in the source (`models.LogLevel`). -/
abbrev LogLevel := String

/-- Severity constant `models.LogLevelDebug`. -/
def LogLevelDebug : LogLevel := "DEBUG"

/-- Severity constant `models.LogLevelInfo`. -/
def LogLevelInfo : LogLevel := "INFO"

/-- Severity constant `models.LogLevelWarn`. -/
def LogLevelWarn : LogLevel := "WARN"

/-- Severity constant `models.LogLevelError`. -/
def LogLevelError : LogLevel := "ERROR"

/-- Severity constant `models.LogLevelFatal`. -/
def LogLevelFatal : LogLevel := "FATAL"

/-- `models.LogEntry`. Field defaults are the Go zero values. -/
structure LogEntry where
  id : UUID := uuidNil
  tenantId : UUID := uuidNil
  serviceName : String := ""
  level : LogLevel := ""
  message : String := ""
  timestamp : Time := 0
  traceId : String := ""
  spanId : String := ""
  userId : Option UUID := none
  requestId : String := ""
  source : String := ""
  host : String := ""
  environment : String := ""
deriving Repr, DecidableEq

/-- `models.LogFilter`. Field defaults are the Go zero values. -/
structure LogFilter where
  tenantId : Option UUID := none
  serviceName : String := ""
  level : LogLevel := ""
  minLevel : LogLevel := ""
  startTime : Option Time := none
  endTime : Option Time := none
  traceId : String := ""
  userId : Option UUID := none
  requestId : String := ""
  search : String := ""
  environment : String := ""
  page : Int := 0
  pageSize : Int := 0
deriving Repr, DecidableEq

/-- `models.LogQueryResult`. -/
structure LogQueryResult where
  entries : List LogEntry := []
  totalCount : Int := 0
  page : Int := 0
  pageSize : Int := 0
  hasMore : Bool := false
deriving Repr, DecidableEq

/-- `models.LogRetention` (one retention policy). -/
structure LogRetention where
  id : UUID := uuidNil
  tenantId : UUID := uuidNil
  retentionDays : Int := 0
  maxSizeGB : Int := 0
  archiveEnabled : Bool := false
  archivePath : String := ""
deriving Repr, DecidableEq

/-- `models.LogAlert`. The `Filter json.RawMessage` field is modelled by
its parse outcome: `none` when `json.Unmarshal` fails on the payload. -/
structure LogAlert where
  id : UUID := uuidNil
  tenantId : UUID := uuidNil
  name : String := ""
  description : String := ""
  enabled : Bool := true
  filter : Option LogFilter := none
  threshold : Int := 0
  windowMins : Int := 5
  severity : String := ""
  lastTriggered : Option Time := none
deriving Repr, DecidableEq

/-- `LogService.matchesAlert`: parse the rule's filter JSON (a parse
failure yields `false`), then test service name, exact level, and tenant;
each specified field must equal the entry's, unspecified fields pass. -/
def matchesAlert (entry : LogEntry) (alert : LogAlert) : Bool :=
  match alert.filter with
  | none => false
  | some filter =>
    if filter.serviceName != "" && filter.serviceName != entry.serviceName then false
    else if filter.level != "" && filter.level != entry.level then false
    else if (match filter.tenantId with
             | some t => t != entry.tenantId
             | none => false) then false
    else true

/-- Outcome of one `LogService.triggerAlert` call: the rule's
`last_triggered` value afterwards and whether the notification side
effect happened. -/
structure TriggerOutcome where
  lastTriggered : Option Time
  notified : Bool
deriving Repr, DecidableEq

/-- `LogService.triggerAlert`: drop the trigger when `last_triggered` is
set and `time.Since(*last_triggered) < time.Minute`; otherwise update
`last_triggered` to now and notify. -/
def triggerAlert (now : Time) (alert : LogAlert) : TriggerOutcome :=
  match alert.lastTriggered with
  | some t =>
      if now - t < minuteNs then
        { lastTriggered := alert.lastTriggered, notified := false }
      else
        { lastTriggered := some now, notified := true }
  | none => { lastTriggered := some now, notified := true }

/-- `LogService.checkAlerts`: load the enabled rules (an error aborts the
call silently), and for each rule that matches the entry run
`triggerAlert`; the result lists the ids of the rules whose notification
fired in this call. -/
def checkAlerts (now : Time) (alertsResult : Except String (List LogAlert))
    (entry : LogEntry) : List UUID :=
  match alertsResult with
  | .error _ => []
  | .ok alerts =>
      (alerts.filter (fun a => matchesAlert entry a && (triggerAlert now a).notified)).map
        (fun a => a.id)

/-- Identifier/timestamp defaulting shared by `IngestSingle`,
`IngestBatch` and `BufferLog` (three inline copies in the source): a nil
id is replaced by the next `uuid.New()` value (`newId`), a zero timestamp
by the clock reading (`now`). -/
def applyEntryDefaults (newId : UUID) (now : Time) (entry : LogEntry) : LogEntry :=
  let e := if entry.id = uuidNil then { entry with id := newId } else entry
  if e.timestamp = 0 then { e with timestamp := now } else e

/-- Observable outcome of one `LogService.IngestSingle` call. -/
structure IngestOutcome where
  stored : LogEntry
  result : Except String Unit
  notifications : List UUID
deriving Repr

/-- `LogService.IngestSingle`: apply id/timestamp defaults, fire the
asynchronous alert check (whose outcome is discarded), and return the
repository `Create` result. `newId` models the `uuid.New()` draw,
`alertsResult` the alert repository's `FindEnabled` outcome, and
`createResult` the entry store's `Create` outcome. -/
def IngestSingle (newId : UUID) (now : Time)
    (alertsResult : Except String (List LogAlert))
    (createResult : Except String Unit) (entry : LogEntry) : IngestOutcome :=
  let e := applyEntryDefaults newId now entry
  { stored := e
    result := createResult
    notifications := checkAlerts now alertsResult e }

/-- Entry defaulting loop of `LogService.IngestBatch`: every entry with a
nil id receives its own `uuid.New()` draw (modelled by the injective
stream `freshIds`, consumed in order starting at index `k`), and every
zero timestamp receives the single `now` read before the loop. -/
def IngestBatchEntries (freshIds : Nat → UUID) (now : Time) :
    List LogEntry → Nat → List LogEntry
  | [], _ => []
  | e :: rest, k =>
      let consumed := if e.id = uuidNil then 1 else 0
      applyEntryDefaults (freshIds k) now e ::
        IngestBatchEntries freshIds now rest (k + consumed)

/-- State touched by `LogService.flushBuffer`: the in-memory buffer, the
entries durably held by the store, and how many `CreateBatch` calls have
been issued to the store. -/
structure BufferState where
  buffer : List LogEntry := []
  store : List LogEntry := []
  storeCalls : Nat := 0
deriving Repr, DecidableEq

/-- `LogService.flushBuffer`: an empty buffer returns immediately;
otherwise the buffer is swapped for an empty one and the swapped-out
batch is written to the store in one `CreateBatch` call. `ok` is whether
that store write succeeds; on failure the error is only printed — the
batch is neither retried nor re-buffered. -/
def flushBuffer (ok : Bool) (s : BufferState) : BufferState :=
  if s.buffer.isEmpty then s
  else
    let entries := s.buffer
    { buffer := []
      store := if ok then s.store ++ entries else s.store
      storeCalls := s.storeCalls + 1 }

/-- Outcome of `LogService.getCachedResult` as observed by `Query`:
a usable hit, a miss (`redis == nil`, i.e. `(nil, nil)`), or a read
failure (`redis.Get` error — including a missing key, which go-redis
reports as `redis.Nil` — or a `json.Unmarshal` error). -/
inductive CacheRead where
  | hit (r : LogQueryResult)
  | miss
  | fail
deriving Repr, DecidableEq

/-- `LogService.cacheResult`: skipped when the Redis client is absent or
`json.Marshal` fails, otherwise the marshalled result is `Set` under the
key with the given TTL (in seconds); the `Set` outcome is discarded.
Returns the written (value, ttl) pair, or `none` when nothing is written. -/
def cacheResult (redisAvailable : Bool) (marshalOk : Bool)
    (r : LogQueryResult) (ttlSeconds : Int) : Option (LogQueryResult × Int) :=
  if !redisAvailable then none
  else if !marshalOk then none
  else some (r, ttlSeconds)

/-- Observable outcome of one `LogService.Query` call. -/
structure QueryOutcome where
  result : Except String LogQueryResult
  storeQueried : Bool
  cacheWrite : Option (LogQueryResult × Int)
deriving Repr

/-- `LogService.Query`: a cache hit (`err == nil && cached != nil`) is
returned as-is; otherwise the entry store is queried, a store error is
returned to the caller, and a store success is wrapped into a
`LogQueryResult`, written back to the cache with a 30-second TTL, and
returned. `storeResult` models `logRepo.Query` returning (entries,
total count) or an error. -/
def Query (cacheRead : CacheRead) (redisAvailable marshalOk : Bool)
    (storeResult : Except String (List LogEntry × Int))
    (filter : LogFilter) : QueryOutcome :=
  match cacheRead with
  | .hit r => { result := .ok r, storeQueried := false, cacheWrite := none }
  | _ =>
    match storeResult with
    | .error e => { result := .error e, storeQueried := true, cacheWrite := none }
    | .ok (entries, total) =>
        let r : LogQueryResult :=
          { entries := entries
            totalCount := total
            page := filter.page
            pageSize := filter.pageSize }
        { result := .ok r
          storeQueried := true
          cacheWrite := cacheResult redisAvailable marshalOk r 30 }

/-- The ordered severity ladder used by `getLevelsAtOrAbove`. -/
def logLevels : List LogLevel :=
  [LogLevelDebug, LogLevelInfo, LogLevelWarn, LogLevelError, LogLevelFatal]

/-- `repository.getLevelsAtOrAbove`: walk the severity ladder with a
`found` flag that flips on at the first element equal to `level`, and
collect every element from that point on. -/
def getLevelsAtOrAbove (level : LogLevel) : List LogLevel :=
  (logLevels.foldl
    (fun (acc : List LogLevel × Bool) l =>
      let found := acc.2 || (l == level)
      (if found then acc.1 ++ [l] else acc.1, found))
    ([], false)).1

/-- Predicate semantics of `LogRepository.buildQuery`: an entry is
selected iff it satisfies every `Where` clause the filter contributes
(each zero-valued filter field contributes no clause). The SQL
`LOWER(message) LIKE %search%` clause is lowercase substring containment,
and `level IN ?` with an empty level list selects nothing. -/
def filterMatches (f : LogFilter) (e : LogEntry) : Bool :=
  (match f.tenantId with | some t => t == e.tenantId | none => true)
  && (if f.serviceName != "" then f.serviceName == e.serviceName else true)
  && (if f.level != "" then f.level == e.level else true)
  && (if f.minLevel != "" then (getLevelsAtOrAbove f.minLevel).contains e.level else true)
  && (match f.startTime with | some t => decide (t ≤ e.timestamp) | none => true)
  && (match f.endTime with | some t => decide (e.timestamp ≤ t) | none => true)
  && (if f.traceId != "" then f.traceId == e.traceId else true)
  && (match f.userId with
      | some u => (match e.userId with | some v => u == v | none => false)
      | none => true)
  && (if f.requestId != "" then f.requestId == e.requestId else true)
  && (if f.environment != "" then f.environment == e.environment else true)
  && (if f.search != "" then
        decide (f.search.toLower.toList <:+: e.message.toLower.toList)
      else true)

/-- `LogRepository.DeleteOlderThan` as a transformation of the stored
entries: delete every entry with `timestamp < before`, restricted to one
tenant when `tenantId` is given and unrestricted when it is `nil`. -/
def DeleteOlderThan (tenantId : Option UUID) (before : Time)
    (store : List LogEntry) : List LogEntry :=
  store.filter (fun e =>
    !(decide (e.timestamp < before)
      && (match tenantId with | some t => t == e.tenantId | none => true)))

/-- Cutoff computation of `LogService.Cleanup`:
`time.Now().AddDate(0, 0, -days)`, with fixed-length days. -/
def cleanupCutoff (now : Time) (days : Int) : Time := now - days * dayNs

/-- `LogService.Cleanup`: load all retention policies (a load error is
returned at once), run one `DeleteOlderThan` per policy scoped to that
policy's tenant with cutoff `now - retention_days` (per-tenant store
errors are only printed, not modelled here), then run one final
`DeleteOlderThan` with a `nil` tenant at the config's default cutoff.
Returns the call's result and the store contents afterwards. -/
def Cleanup (now : Time) (defaultDays : Int)
    (policiesResult : Except String (List LogRetention))
    (store : List LogEntry) : Except String Unit × List LogEntry :=
  match policiesResult with
  | .error e => (.error e, store)
  | .ok policies =>
      let afterTenantPasses := policies.foldl
        (fun st p => DeleteOlderThan (some p.tenantId) (cleanupCutoff now p.retentionDays) st)
        store
      (.ok (), DeleteOlderThan none (cleanupCutoff now defaultDays) afterTenantPasses)

/-- Number of entries with a nil id among a list of entries; applied to
`entries.take i` it counts the `uuid.New()` draws consumed before
position `i` of the `IngestBatch` defaulting loop. -/
def nilIdCount (entries : List LogEntry) : Nat :=
  entries.countP (fun e => e.id == uuidNil)

/-- C4: for every buffer state, `flushBuffer` leaves the buffer empty;
a non-empty buffer is written to the store in exactly one batched call
(appending exactly the buffered entries on success and nothing on
failure, with no retry and no re-buffering), and an empty buffer causes
no store call and no state change. -/
theorem flushBuffer_spec (ok : Bool) (s : BufferState) :
    (flushBuffer ok s).buffer = []
    ∧ (flushBuffer ok s).store =
        (if ok = true ∧ s.buffer ≠ [] then s.store ++ s.buffer else s.store)
    ∧ (flushBuffer ok s).storeCalls =
        (if s.buffer = [] then s.storeCalls else s.storeCalls + 1)
    ∧ (s.buffer = [] → flushBuffer ok s = s) := by
  rcases s with ⟨buf, st, calls⟩
  cases buf <;> cases ok <;> simp [flushBuffer]

/-- Witness for `flushBuffer_spec`: flushing an empty buffer is a no-op. -/
theorem flushBuffer_spec_witness :
    flushBuffer true { buffer := [], store := [], storeCalls := 3 }
      = { buffer := [], store := [], storeCalls := 3 } :=
  (flushBuffer_spec true { buffer := [], store := [], storeCalls := 3 }).2.2.2 rfl

/-- C10: when loading the retention policies fails, `Cleanup` returns
that error at once and the store is untouched — no deletion pass runs. -/
theorem Cleanup_load_failure (now : Time) (defaultDays : Int) (err : String)
    (store : List LogEntry) :
    Cleanup now defaultDays (.error err) store = (.error err, store) := rfl

/-- C3 counterexample: a rule whose `last_triggered` lies exactly 60
seconds in the past — squarely on the cooldown boundary — fires (the
source drops only when `time.Since < time.Minute`), whereas the claim
says a trigger exactly at the boundary is dropped. -/
theorem triggerAlert_boundary_fires :
    (triggerAlert minuteNs { lastTriggered := some 0 }).notified = true := by
  decide

/-- C3 (amended): a trigger fires (updating `last_triggered` to now with
a notification) iff `last_triggered` is null or at least 60 seconds in
the past; strictly within the 60-second cooldown it is dropped with no
state change and no notification. -/
theorem triggerAlert_spec (now : Time) (alert : LogAlert) :
    (alert.lastTriggered = none →
        triggerAlert now alert = { lastTriggered := some now, notified := true })
    ∧ (∀ t, alert.lastTriggered = some t → minuteNs ≤ now - t →
        triggerAlert now alert = { lastTriggered := some now, notified := true })
    ∧ (∀ t, alert.lastTriggered = some t → now - t < minuteNs →
        triggerAlert now alert = { lastTriggered := alert.lastTriggered, notified := false }) := by
  refine ⟨?_, ?_, ?_⟩
  · intro hn
    simp [triggerAlert, hn]
  · intro t ht hle
    simp [triggerAlert, ht, not_lt.mpr hle]
  · intro t ht hlt
    simp [triggerAlert, ht, hlt]

/-- Witness for `triggerAlert_spec`: a never-triggered rule fires, a rule
last triggered exactly one minute ago fires, and a rule last triggered
10 ns ago is dropped unchanged. -/
theorem triggerAlert_spec_witness :
    triggerAlert 5 { lastTriggered := none }
      = { lastTriggered := some 5, notified := true }
    ∧ triggerAlert minuteNs { lastTriggered := some 0 }
      = { lastTriggered := some minuteNs, notified := true }
    ∧ triggerAlert 10 { lastTriggered := some 0 }
      = { lastTriggered := some 0, notified := false } :=
  ⟨(triggerAlert_spec 5 { lastTriggered := none }).1 rfl,
   (triggerAlert_spec minuteNs { lastTriggered := some 0 }).2.1 0 rfl (by decide),
   (triggerAlert_spec 10 { lastTriggered := some 0 }).2.2 0 rfl (by decide)⟩

/-- C1: the final default-retention pass of `Cleanup` passes a `nil`
tenant to `DeleteOlderThan`, so it deletes entries of every tenant older
than the default cutoff — here an entry of tenant 1, which has a 60-day
policy and whose 40-day-old entry survives the tenant pass, is deleted
by the default (30-day) pass, contradicting the claim (and the source's
own comment) that this pass only touches tenants without a policy. The
second conjunct shows the pass does run with zero policies present. -/
theorem cleanup_default_pass_ignores_policies :
    (Cleanup 0 30 (.ok [{ tenantId := 1, retentionDays := 60 }])
        [{ id := 7, tenantId := 1, timestamp := -40 * dayNs }]).2 = []
    ∧ (Cleanup 0 30 (.ok [])
        [{ id := 8, tenantId := 2, timestamp := -40 * dayNs }]).2 = [] := by
  decide

/-- C7: per-tenant deletion is boundary-exclusive in isolation — the
tenant pass retains tenant 1's entry timestamped exactly at its 60-day
cutoff (first conjunct) — but the whole `Cleanup` call still deletes
that very entry, because the unscoped default (30-day) pass removes it,
contradicting the claim that it is retained. -/
theorem cleanup_boundary_entry_deleted :
    DeleteOlderThan (some 1) (cleanupCutoff 0 60)
        [{ id := 7, tenantId := 1, timestamp := -60 * dayNs }]
      = [{ id := 7, tenantId := 1, timestamp := -60 * dayNs }]
    ∧ (Cleanup 0 30 (.ok [{ tenantId := 1, retentionDays := 60 }])
        [{ id := 7, tenantId := 1, timestamp := -60 * dayNs }]).2 = [] := by
  decide

/-- C2 counterexample: the first rule's filter JSON fails to parse
(modelled by `filter := none`), yet evaluation is not aborted — the
second rule still matches the entry and fires its notification, so rules
after the parse failure are matched and triggered. -/
theorem checkAlerts_parse_failure_continues :
    ({ id := 1, filter := none } : LogAlert).filter = none
    ∧ checkAlerts 0
        (.ok [{ id := 1, filter := none }, { id := 2, filter := some {} }])
        { id := 9, tenantId := 3 }
      = [2] := by
  decide

/-- C2 (amended): a failure to load the enabled rules aborts evaluation
with no rule matched or triggered; a rule whose filter fails to parse is
merely treated as non-matching — removing it leaves the evaluation of
the remaining rules unchanged, which continues — and in every case
nothing of the alert path reaches the ingestion caller's result. -/
theorem checkAlerts_failure_spec (now : Time) (entry : LogEntry) :
    (∀ err, checkAlerts now (.error err) entry = [])
    ∧ (∀ alert : LogAlert, alert.filter = none → matchesAlert entry alert = false)
    ∧ (∀ (pre post : List LogAlert) (bad : LogAlert), bad.filter = none →
        checkAlerts now (.ok (pre ++ bad :: post)) entry
          = checkAlerts now (.ok (pre ++ post)) entry)
    ∧ (∀ (newId : UUID) (alertsResult : Except String (List LogAlert))
          (createResult : Except String Unit) (e : LogEntry),
        (IngestSingle newId now alertsResult createResult e).result = createResult) := by
  have hbad : ∀ alert : LogAlert, alert.filter = none → matchesAlert entry alert = false := by
    intro alert h
    simp [matchesAlert, h]
  refine ⟨fun _ => rfl, hbad, ?_, fun _ _ _ _ => rfl⟩
  intro pre post bad h
  simp [checkAlerts, List.filter_append, hbad bad h]

/-- Witness for `checkAlerts_failure_spec`: dropping the unparseable rule
from a concrete rule list does not change which rules fire. -/
theorem checkAlerts_failure_spec_witness :
    checkAlerts 0 (.ok ([{ id := 2, filter := some {} }] ++
        ({ id := 1, filter := none } : LogAlert) :: []))
        { id := 9, tenantId := 3 }
      = checkAlerts 0 (.ok ([{ id := 2, filter := some {} }] ++ []))
        { id := 9, tenantId := 3 } :=
  (checkAlerts_failure_spec 0 { id := 9, tenantId := 3 }).2.2.1
    [{ id := 2, filter := some {} }] [] { id := 1, filter := none } rfl

/-- C6: for a rule whose filter parses to `f`, `matchesAlert` holds iff
each of the three fields {service name, exact level, tenant} that `f`
specifies equals the entry's field (unspecified fields are wildcards),
and every other field of the filter schema — minimum level, time range,
search text, environment, trace/user/request ids, pagination — has no
effect on the outcome. -/
theorem matchesAlert_spec (entry : LogEntry) (alert : LogAlert) (f : LogFilter)
    (hf : alert.filter = some f) :
    (matchesAlert entry alert = true ↔
      ((f.serviceName = "" ∨ f.serviceName = entry.serviceName)
       ∧ (f.level = "" ∨ f.level = entry.level)
       ∧ (∀ t, f.tenantId = some t → t = entry.tenantId)))
    ∧ (∀ (minLevel : LogLevel) (startTime endTime : Option Time)
          (traceId : String) (userId : Option UUID) (requestId search env : String)
          (page pageSize : Int),
        matchesAlert entry
          { alert with filter := some { f with
              minLevel := minLevel, startTime := startTime, endTime := endTime,
              traceId := traceId, userId := userId, requestId := requestId,
              search := search, environment := env,
              page := page, pageSize := pageSize } }
          = matchesAlert entry alert) := by
  constructor
  · rcases htid : f.tenantId with _ | t <;>
      by_cases h1 : f.serviceName = "" <;>
      by_cases h2 : f.serviceName = entry.serviceName <;>
      by_cases h3 : f.level = "" <;>
      by_cases h4 : f.level = entry.level <;>
      simp [matchesAlert, hf, htid, h1, h2, h3, h4]
  · intro minLevel startTime endTime traceId userId requestId search env page pageSize
    simp [matchesAlert, hf]

/-- Witness for `matchesAlert_spec`: a rule filter specifying only the
service name matches an entry with that service regardless of level, and
adding a `min_level` to the rule filter changes nothing. -/
theorem matchesAlert_spec_witness :
    (matchesAlert { tenantId := 3, serviceName := "api", level := "INFO" }
        { id := 4, filter := some { serviceName := "api" } } = true)
    ∧ matchesAlert { tenantId := 3, serviceName := "api", level := "INFO" }
        { id := 4, filter := some { serviceName := "api", minLevel := "ERROR" } }
      = matchesAlert { tenantId := 3, serviceName := "api", level := "INFO" }
        { id := 4, filter := some { serviceName := "api" } } :=
  ⟨(matchesAlert_spec { tenantId := 3, serviceName := "api", level := "INFO" }
      { id := 4, filter := some { serviceName := "api" } }
      { serviceName := "api" } rfl).1.mpr
      ⟨Or.inr rfl, Or.inl rfl, by simp⟩,
   by
    have h := (matchesAlert_spec { tenantId := 3, serviceName := "api", level := "INFO" }
      { id := 4, filter := some { serviceName := "api" } }
      { serviceName := "api" } rfl).2 "ERROR" none none "" none "" "" "" 0 0
    exact h⟩

/-- C5: `Query` returns an error only when the entry store query itself
fails (and then the store really was consulted), a cache read failure
behaves exactly like a cache miss, the returned result never depends on
cache availability or marshalling for the write-back, and on a store
success with no cache hit the built result is returned and — whenever a
write-back happens — cached with a 30-second TTL. -/
theorem Query_spec (cr : CacheRead) (a m : Bool)
    (st : Except String (List LogEntry × Int)) (f : LogFilter) :
    (∀ e, (Query cr a m st f).result = .error e →
        st = .error e ∧ (Query cr a m st f).storeQueried = true)
    ∧ Query .fail a m st f = Query .miss a m st f
    ∧ (Query cr a m st f).result = (Query cr true true st f).result
    ∧ (∀ entries total, st = .ok (entries, total) → (∀ r, cr ≠ .hit r) →
        (Query cr a m st f).result =
          .ok { entries := entries, totalCount := total,
                page := f.page, pageSize := f.pageSize }
        ∧ (∀ r ttl, (Query cr a m st f).cacheWrite = some (r, ttl) →
            r = { entries := entries, totalCount := total,
                  page := f.page, pageSize := f.pageSize } ∧ ttl = 30)) := by
  rcases cr with r | _ | _ <;> rcases st with e | ⟨entries, total⟩ <;>
    cases a <;> cases m <;>
    simp [Query, cacheResult]

/-- Witness for `Query_spec`: a failed cache read with a successful store
query returns the built result, and the write-back carries TTL 30. -/
theorem Query_spec_witness :
    (Query .fail true true (.ok ([], 0)) {}).result
      = .ok { entries := [], totalCount := 0, page := 0, pageSize := 0 }
    ∧ ((Query .fail true true (.ok ([], 0)) {}).cacheWrite =
        some ({ entries := [], totalCount := 0, page := 0, pageSize := 0 }, 30) →
        (30 : Int) = 30) :=
  ⟨((Query_spec .fail true true (.ok ([], 0)) {}).2.2.2 [] 0 rfl
      (fun _ h => CacheRead.noConfusion h)).1,
   fun h => ((Query_spec .fail true true (.ok ([], 0)) {}).2.2.2 [] 0 rfl
      (fun _ hr => CacheRead.noConfusion hr)).2
      { entries := [], totalCount := 0, page := 0, pageSize := 0 } 30 h |>.2⟩

/-- C9: `getLevelsAtOrAbove` returns exactly the suffix of the severity
ladder [DEBUG, INFO, WARN, ERROR, FATAL] starting at the given level; a
level not on the ladder yields the empty list, and consequently a filter
carrying such a (present, unknown) `min_level` selects no entry at all
under the `buildQuery` semantics. -/
theorem getLevelsAtOrAbove_spec (level : LogLevel) :
    getLevelsAtOrAbove level = logLevels.dropWhile (fun l => l != level)
    ∧ (level ∉ logLevels → getLevelsAtOrAbove level = [])
    ∧ (∀ (f : LogFilter) (e : LogEntry),
        f.minLevel = level → level ≠ "" → level ∉ logLevels →
        filterMatches f e = false) := by
  have hmain : getLevelsAtOrAbove level = logLevels.dropWhile (fun l => l != level) := by
    by_cases h1 : LogLevelDebug = level <;> by_cases h2 : LogLevelInfo = level <;>
      by_cases h3 : LogLevelWarn = level <;> by_cases h4 : LogLevelError = level <;>
      by_cases h5 : LogLevelFatal = level <;>
      simp [getLevelsAtOrAbove, logLevels, List.dropWhile_cons, List.foldl,
        bne_iff_ne, h1, h2, h3, h4, h5]
  have hempty : level ∉ logLevels → getLevelsAtOrAbove level = [] := by
    intro h
    rw [hmain]
    simp only [logLevels, LogLevelDebug, LogLevelInfo, LogLevelWarn, LogLevelError,
      LogLevelFatal, List.mem_cons, List.not_mem_nil, or_false, not_or] at h
    obtain ⟨n1, n2, n3, n4, n5⟩ := h
    simp [logLevels, List.dropWhile_cons, bne_iff_ne, LogLevelDebug, LogLevelInfo,
      LogLevelWarn, LogLevelError, LogLevelFatal, Ne.symm n1, Ne.symm n2, Ne.symm n3,
      Ne.symm n4, Ne.symm n5]
  refine ⟨hmain, hempty, ?_⟩
  intro f e hmin hne hnot
  have h0 : getLevelsAtOrAbove f.minLevel = [] := by
    rw [hmin]
    exact hempty hnot
  have hbne : (f.minLevel != "") = true := by
    simp [hmin, hne]
  simp [filterMatches, h0, hbne]

/-- Witness for `getLevelsAtOrAbove_spec`: the unknown level TRACE yields
the empty list, and a filter with `min_level = "TRACE"` rejects an ERROR
entry. -/
theorem getLevelsAtOrAbove_spec_witness :
    getLevelsAtOrAbove "TRACE" = []
    ∧ filterMatches { minLevel := "TRACE" } { level := "ERROR" } = false :=
  ⟨(getLevelsAtOrAbove_spec "TRACE").2.1 (by decide),
   (getLevelsAtOrAbove_spec "TRACE").2.2 { minLevel := "TRACE" } { level := "ERROR" }
     rfl (by decide) (by decide)⟩

/-- Length preservation of the `IngestBatch` defaulting loop. -/
theorem ingestBatchEntries_length (freshIds : Nat → UUID) (now : Time) :
    ∀ (entries : List LogEntry) (k : Nat),
      (IngestBatchEntries freshIds now entries k).length = entries.length
  | [], _ => rfl
  | _ :: rest, k => by
      simp [IngestBatchEntries, ingestBatchEntries_length freshIds now rest]

/-- Pointwise description of the `IngestBatch` defaulting loop: position
`i` of the output is the defaulted original entry, with the `uuid.New()`
stream advanced by the number of nil ids occurring before position `i`. -/
theorem ingestBatchEntries_get (freshIds : Nat → UUID) (now : Time) :
    ∀ (entries : List LogEntry) (k i : Nat) (hi : i < entries.length)
      (hi' : i < (IngestBatchEntries freshIds now entries k).length),
      (IngestBatchEntries freshIds now entries k).get ⟨i, hi'⟩
        = applyEntryDefaults (freshIds (k + nilIdCount (entries.take i))) now
            (entries.get ⟨i, hi⟩)
  | [], _, i, hi, _ => absurd hi (Nat.not_lt_zero i)
  | e :: rest, k, 0, _, _ => by
      simp [IngestBatchEntries, nilIdCount]
  | e :: rest, k, i + 1, hi, hi' => by
      have hs : i < rest.length := Nat.lt_of_succ_lt_succ hi
      have hs' : i < (IngestBatchEntries freshIds now rest
          (k + if e.id = uuidNil then 1 else 0)).length := by
        rw [ingestBatchEntries_length freshIds now rest]
        exact hs
      have ih := ingestBatchEntries_get freshIds now rest
        (k + if e.id = uuidNil then 1 else 0) i hs hs'
      have hcons : (IngestBatchEntries freshIds now (e :: rest) k).get ⟨i + 1, hi'⟩
          = (IngestBatchEntries freshIds now rest
              (k + if e.id = uuidNil then 1 else 0)).get ⟨i, hs'⟩ := rfl
      rw [hcons, ih]
      have harg : k + (if e.id = uuidNil then 1 else 0) + nilIdCount (rest.take i)
          = k + nilIdCount ((e :: rest).take (i + 1)) := by
        show _ = k + nilIdCount (e :: rest.take i)
        by_cases he : e.id = uuidNil <;>
          simp [nilIdCount, List.countP_cons, he, uuidNil] <;> omega
      rw [harg]
      rfl

/-- Nil-id counts over prefixes grow strictly past a nil-id position. -/
theorem nilIdCount_take_lt (entries : List LogEntry) (i j : Nat) (hij : i < j)
    (hi : i < entries.length) (hnil : (entries.get ⟨i, hi⟩).id = uuidNil) :
    nilIdCount (entries.take i) < nilIdCount (entries.take j) := by
  have hstep : nilIdCount (entries.take (i + 1)) = nilIdCount (entries.take i) + 1 := by
    have h1 : entries[i]? = some (entries.get ⟨i, hi⟩) := by
      rw [List.getElem?_eq_getElem hi]
      simp
    simp only [nilIdCount]
    rw [List.take_succ, h1]
    simp only [List.countP_append, List.countP_cons, Option.toList_some]
    simp [uuidNil]
    exact hnil
  have hsub : List.Sublist (entries.take (i + 1)) (entries.take j) := by
    have htt : (entries.take j).take (i + 1) = entries.take (i + 1) := by
      rw [List.take_take]
      congr 1
      omega
    rw [← htt]
    exact List.take_sublist _ _
  have hmono : nilIdCount (entries.take (i + 1)) ≤ nilIdCount (entries.take j) :=
    List.Sublist.countP_le _ hsub
  omega

/-- Field-level description of the shared id/timestamp defaulting step. -/
theorem applyEntryDefaults_fields (newId : UUID) (now : Time) (entry : LogEntry) :
    (entry.id = uuidNil → (applyEntryDefaults newId now entry).id = newId)
    ∧ (entry.id ≠ uuidNil → (applyEntryDefaults newId now entry).id = entry.id)
    ∧ (entry.timestamp = 0 → (applyEntryDefaults newId now entry).timestamp = now)
    ∧ (entry.timestamp ≠ 0 →
        (applyEntryDefaults newId now entry).timestamp = entry.timestamp) := by
  by_cases h1 : entry.id = uuidNil <;> by_cases h2 : entry.timestamp = 0 <;>
    simp [applyEntryDefaults, h1, h2]

/-- C8: an entry submitted through `IngestSingle` or the `IngestBatch`
loop keeps an existing identifier and timestamp unchanged; an absent
(nil) identifier is replaced by a fresh `uuid.New()` draw — non-nil, and
pairwise distinct across a batch — and an absent (zero) timestamp by the
call-time clock reading. -/
theorem ingest_defaults_spec (newId : UUID) (now : Time) (freshIds : Nat → UUID)
    (hinj : Function.Injective freshIds) (hnz : ∀ n, freshIds n ≠ uuidNil)
    (alertsResult : Except String (List LogAlert)) (createResult : Except String Unit)
    (entry : LogEntry) (entries : List LogEntry) (k : Nat) :
    ((entry.id = uuidNil →
        (IngestSingle newId now alertsResult createResult entry).stored.id = newId)
     ∧ (entry.id ≠ uuidNil →
        (IngestSingle newId now alertsResult createResult entry).stored.id = entry.id)
     ∧ (entry.timestamp = 0 →
        (IngestSingle newId now alertsResult createResult entry).stored.timestamp = now)
     ∧ (entry.timestamp ≠ 0 →
        (IngestSingle newId now alertsResult createResult entry).stored.timestamp
          = entry.timestamp))
    ∧ (IngestBatchEntries freshIds now entries k).length = entries.length
    ∧ (∀ (i : Nat) (hi : i < entries.length)
          (hi' : i < (IngestBatchEntries freshIds now entries k).length),
        ((entries.get ⟨i, hi⟩).id ≠ uuidNil →
          ((IngestBatchEntries freshIds now entries k).get ⟨i, hi'⟩).id
            = (entries.get ⟨i, hi⟩).id)
        ∧ ((entries.get ⟨i, hi⟩).id = uuidNil →
          ((IngestBatchEntries freshIds now entries k).get ⟨i, hi'⟩).id ≠ uuidNil)
        ∧ ((entries.get ⟨i, hi⟩).timestamp = 0 →
          ((IngestBatchEntries freshIds now entries k).get ⟨i, hi'⟩).timestamp = now)
        ∧ ((entries.get ⟨i, hi⟩).timestamp ≠ 0 →
          ((IngestBatchEntries freshIds now entries k).get ⟨i, hi'⟩).timestamp
            = (entries.get ⟨i, hi⟩).timestamp))
    ∧ (∀ (i j : Nat) (hi : i < entries.length) (hj : j < entries.length)
          (hi' : i < (IngestBatchEntries freshIds now entries k).length)
          (hj' : j < (IngestBatchEntries freshIds now entries k).length),
        i < j →
        (entries.get ⟨i, hi⟩).id = uuidNil → (entries.get ⟨j, hj⟩).id = uuidNil →
        ((IngestBatchEntries freshIds now entries k).get ⟨i, hi'⟩).id
          ≠ ((IngestBatchEntries freshIds now entries k).get ⟨j, hj'⟩).id) := by
  refine ⟨applyEntryDefaults_fields newId now entry,
    ingestBatchEntries_length freshIds now entries k, ?_, ?_⟩
  · intro i hi hi'
    have hget := ingestBatchEntries_get freshIds now entries k i hi hi'
    have hfields := applyEntryDefaults_fields
      (freshIds (k + nilIdCount (entries.take i))) now (entries.get ⟨i, hi⟩)
    refine ⟨?_, ?_, ?_, ?_⟩
    · intro h
      rw [hget]
      exact hfields.2.1 h
    · intro h
      rw [hget, hfields.1 h]
      exact hnz _
    · intro h
      rw [hget]
      exact hfields.2.2.1 h
    · intro h
      rw [hget]
      exact hfields.2.2.2 h
  · intro i j hi hj hi' hj' hij hni hnj
    have hgi := ingestBatchEntries_get freshIds now entries k i hi hi'
    have hgj := ingestBatchEntries_get freshIds now entries k j hj hj'
    have hfi := (applyEntryDefaults_fields
      (freshIds (k + nilIdCount (entries.take i))) now (entries.get ⟨i, hi⟩)).1 hni
    have hfj := (applyEntryDefaults_fields
      (freshIds (k + nilIdCount (entries.take j))) now (entries.get ⟨j, hj⟩)).1 hnj
    rw [hgi, hgj, hfi, hfj]
    intro heq
    have hkeq := hinj heq
    have hlt := nilIdCount_take_lt entries i j hij hi hni
    omega

/-- Witness for `ingest_defaults_spec` at a concrete three-entry batch:
the first and third entries arrive without ids and receive distinct
fresh identifiers. -/
theorem ingest_defaults_spec_witness :
    ((IngestBatchEntries (fun n => n + 1) 99
        [{ message := "a" }, { id := 5 }, { message := "b", timestamp := 7 }] 0).get
      ⟨0, by decide⟩).id
    ≠ ((IngestBatchEntries (fun n => n + 1) 99
        [{ message := "a" }, { id := 5 }, { message := "b", timestamp := 7 }] 0).get
      ⟨2, by decide⟩).id :=
  (ingest_defaults_spec 1 99 (fun n => n + 1)
      (fun _ _ h => Nat.succ_injective h) (fun n => Nat.succ_ne_zero n)
      (.ok []) (.ok ()) {}
      [{ message := "a" }, { id := 5 }, { message := "b", timestamp := 7 }] 0).2.2.2
    0 2 (by decide) (by decide) (by decide) (by decide) (by decide) rfl rfl
